import Mathlib

/-!
Verification development for the Discord relay bot (`src/server.ts`).

The message-batching core of `server.ts` is shallowly embedded below:

* the two JS `Map`s `channelMessageBuffers` and `channelBatchTimers` become
  association lists with unique keys (`mapGet` / `mapSet` / `mapDelete`
  mirror `Map.get` / `Map.set` / `Map.delete`);
* `addMessageToBatch` and the synchronous prefix of `drainMessageBatch`
  (everything up to and including the initiation of the `sendMessage`
  backend call) become pure state transformers; the completion of the
  suspended `await` becomes a separate `Event.complete` transition, so any
  interleaving of the single-threaded JS event loop is a list of `Event`s;
* `sendMessage` / `sendTimerMessage` live in `src/messages.ts`, which is not
  part of the sources; their payload contract is modelled from the spec
  (see `sendMessagePayload`);
* JS strings are modelled by `String` over `List Char` (UTF-16 code-unit
  subtleties are out of scope: all reasoning is at the level of characters).
-/

namespace LettaBot

/-- The classification labels used by `server.ts` (the `MessageType` enum
imported from `./messages`; its four members `MENTION`, `REPLY`, `DM`,
`GENERIC` are the ones `server.ts` uses). -/
inductive MessageType where
  | MENTION
  | REPLY
  | DM
  | GENERIC
deriving DecidableEq, Repr

/-- The replied-to message, as fetched by
`message.channel.messages.fetch(message.reference.messageId)`: the fields
`server.ts` reads are `author.id` and `content`. A `Msg.reference` of
`some orig` models a message whose `reference` (with `messageId`) is present
and whose original message was fetched successfully. -/
structure OrigMsg where
  authorId : String
  content : String
deriving DecidableEq, Repr

/-- An inbound Discord message, restricted to the fields `server.ts` reads:
`channel.id`, `channel.name` (absent ⇒ `none`), `author.id`,
`author.username`, `author.bot`, `content`, `guild` presence,
`mentions.has(client.user)`, and the (fetched) replied-to message. -/
structure Msg where
  channelId : String
  channelName : Option String
  authorId : String
  authorName : String
  authorIsBot : Bool
  content : String
  inGuild : Bool
  mentionsBot : Bool
  reference : Option OrigMsg
deriving DecidableEq, Repr

/-- Static configuration of `server.ts` (the `process.env`-derived
constants at the top of the file). -/
structure Config where
  respondToDms : Bool
  respondToMentions : Bool
  respondToBots : Bool
  respondToGeneric : Bool
  channelId : Option String
  responseChannelId : Option String
  batchEnabled : Bool
  batchSize : Nat
  batchTimeoutMs : Nat
deriving DecidableEq, Repr

/-- `truncateMessage` from `server.ts` lines 23-28: messages longer than
`maxLength` are cut to `maxLength - 3` characters and get a `"..."`
suffix (JS `substring(0, maxLength - 3)`; `Nat` subtraction matches JS's
clamp-to-empty behaviour for `maxLength < 3`). -/
def truncateMessage (message : String) (maxLength : Nat) : String :=
  if message.length > maxLength then
    String.mk (message.data.take (maxLength - 3)) ++ "..."
  else
    message

/-! ### JS `Map` as an association list with unique keys -/

/-- `Map.get`: the value stored at key `k`, if any. -/
def mapGet {α : Type} : List (String × α) → String → Option α
  | [], _ => none
  | (k', v) :: rest, k => if k' = k then some v else mapGet rest k

/-- `Map.delete`: remove every entry with key `k` (there is at most one). -/
def mapDelete {α : Type} : List (String × α) → String → List (String × α)
  | [], _ => []
  | (k', v) :: rest, k =>
    if k' = k then mapDelete rest k else (k', v) :: mapDelete rest k

/-- `Map.set`: store `v` at key `k`, replacing any previous entry. -/
def mapSet {α : Type} (m : List (String × α)) (k : String) (v : α) :
    List (String × α) :=
  (k, v) :: mapDelete m k

/-- A JS `Map` holds at most one entry per key. -/
def keysNodup {α : Type} (m : List (String × α)) : Prop :=
  (m.map Prod.fst).Nodup

/-! ### Small helpers on lists of channel ids (the in-flight drains) -/

/-- Number of occurrences of a channel id in a list. -/
def countOcc : List String → String → Nat
  | [], _ => 0
  | x :: rest, a => (if x = a then 1 else 0) + countOcc rest a

/-- Membership test on channel-id lists, as a `Bool`. -/
def hasChannel : List String → String → Bool
  | [], _ => false
  | x :: rest, a => if x = a then true else hasChannel rest a

/-- Drop the first occurrence of a channel id. -/
def removeFirst : List String → String → List String
  | [], _ => []
  | x :: rest, a => if x = a then rest else x :: removeFirst rest a

/-! ### The batching engine of `server.ts` as a transition system -/

/-- One entry of a channel's buffer (`BatchedMessage`, `server.ts`
lines 49-53). -/
structure BatchedMessage where
  message : Msg
  messageType : MessageType
  timestamp : Nat
deriving DecidableEq, Repr

/-- A fallback value, used only to read the last element of a buffer that is
statically known to be non-empty. -/
def defaultMsg : Msg :=
  { channelId := "", channelName := none, authorId := "", authorName := ""
    authorIsBot := false, content := "", inGuild := false
    mentionsBot := false, reference := none }

/-- `buffer[buffer.length - 1]` on a non-empty buffer (the fallback value is
only reachable on an empty list, which the call sites exclude). -/
def lastOf : List BatchedMessage → BatchedMessage
  | [] => { message := defaultMsg, messageType := MessageType.GENERIC, timestamp := 0 }
  | [bm] => bm
  | _ :: rest => lastOf rest

/-- The provenance tag prepended to each line of a batch
(`server.ts` lines 84-93). -/
def provenanceTag (username userId : String) (mt : MessageType) : String :=
  match mt with
  | MessageType.MENTION => "[" ++ username ++ " (id=" ++ userId ++ ") mentioned you]"
  | MessageType.REPLY => "[" ++ username ++ " (id=" ++ userId ++ ") replied to you]"
  | MessageType.DM => "[" ++ username ++ " (id=" ++ userId ++ ") sent you a DM]"
  | MessageType.GENERIC => "[" ++ username ++ " (id=" ++ userId ++ ")]"

/-- One numbered line of the batch body: `` `${idx + 1}. ${prefix} ${content}` ``
(`server.ts` line 95; `idx` is the 0-based position in the buffer). -/
def formatLine (idx : Nat) (bm : BatchedMessage) : String :=
  toString (idx + 1) ++ ". " ++
    provenanceTag bm.message.authorName bm.message.authorId bm.messageType ++
    " " ++ bm.message.content

/-- `buffer.map((bm, idx) => ...)` numbering each entry from `idx`. -/
def formatLines (idx : Nat) : List BatchedMessage → List String
  | [] => []
  | bm :: rest => formatLine idx bm :: formatLines (idx + 1) rest

/-- JS `Array.join('\n')`. -/
def joinLines : List String → String
  | [] => ""
  | [s] => s
  | s :: rest => s ++ "\n" ++ joinLines rest

/-- The channel display name (`server.ts` lines 98-100); a present but empty
`channel.name` is falsy in JS and falls back to `channel <id>`. -/
def channelDisplay (channelId : String) (channelName : Option String) : String :=
  match channelName with
  | some n => if n = "" then "channel " ++ channelId else "#" ++ n
  | none => "channel " ++ channelId

/-- The consolidated batch payload (`server.ts` line 102):
`` `[Batch of ${buffer.length} messages from ${channelName}]\n${batchedContent}` ``. -/
def batchMessageText (channelId : String) (channelName : Option String)
    (buf : List BatchedMessage) : String :=
  "[Batch of " ++ toString buf.length ++ " messages from " ++
    channelDisplay channelId channelName ++ "]\n" ++ joinLines (formatLines 0 buf)

/-- `shouldRespondInChannel` (`server.ts` lines 161-168); a configured but
empty `RESPONSE_CHANNEL_ID` is falsy in JS, hence the extra emptiness test. -/
def shouldRespondInChannel (cfg : Config) (channelId : String) : Bool :=
  match cfg.responseChannelId with
  | none => true
  | some rid => if rid = "" then true else if channelId = rid then true else false

/-- One invocation of the `sendMessage` backend call, as recorded by the
transition system: the arguments `server.ts` passes at line 108 (batch
drain) or lines 181/334 (immediate dispatch).  `payloadOverride` is the
optional fourth argument of `sendMessage`; `snapshot` is the buffer contents
a drain formatted (empty for the immediate paths, which pass no batch). -/
structure BackendCall where
  channelId : String
  msg : Msg
  messageType : MessageType
  canRespond : Bool
  payloadOverride : Option String
  snapshot : List BatchedMessage
deriving DecidableEq, Repr

/-- Modelled from the spec: `sendMessage` lives in `src/messages.ts`, which
is not among the sources.  Per the spec (§4.4 step 4 and §6) the request to
the agent backend carries the consolidated payload when one is passed, and
otherwise signals "use raw event text"; so the effective text of a backend
call is the override if present, else the message's own `content`. -/
def sendMessagePayload (m : Msg) (payloadOverride : Option String) : String :=
  payloadOverride.getD m.content

/-- The mutable state of the batching engine: the two JS `Map`s of
`server.ts` lines 55-56, plus the set of drains suspended at the
`await sendMessage` of line 108 (`inflight`, listing their channel ids) and
the log of backend calls already started (`calls`). -/
structure EngineState where
  buffers : List (String × List BatchedMessage)
  timers : List (String × Nat)
  inflight : List String
  calls : List BackendCall
deriving DecidableEq, Repr

/-- The state at process start: both maps empty, nothing in flight. -/
def initState : EngineState :=
  { buffers := [], timers := [], inflight := [], calls := [] }

/-- The backend call a drain of `buf` on `channelId` starts
(`server.ts` lines 74-108): context message and label come from the last
buffer entry, the payload is the consolidated batch text. -/
def drainCall (cfg : Config) (channelId : String) (buf : List BatchedMessage) :
    BackendCall :=
  { channelId := channelId
    msg := (lastOf buf).message
    messageType := (lastOf buf).messageType
    canRespond := shouldRespondInChannel cfg channelId
    payloadOverride :=
      some (batchMessageText channelId (lastOf buf).message.channelName buf)
    snapshot := buf }

/-- The synchronous prefix of `drainMessageBatch` (`server.ts` lines 58-108):
read the buffer, cancel and remove any pending timer, return if the buffer
is absent or empty, otherwise format the batch and start the backend call
(the function then suspends at the `await`; crucially, the buffer entry is
NOT removed here — `channelMessageBuffers.delete` only runs at line 121,
after the `await` returns, which `Event.complete` models). -/
def drainStart (cfg : Config) (s : EngineState) (channelId : String) :
    EngineState :=
  let s1 : EngineState := { s with timers := mapDelete s.timers channelId }
  match mapGet s.buffers channelId with
  | none => s1
  | some [] => s1
  | some (b :: bs) =>
    { s1 with
        calls := s1.calls ++ [drainCall cfg channelId (b :: bs)]
        inflight := s1.inflight ++ [channelId] }

/-- `addMessageToBatch` (`server.ts` lines 124-158): append to the channel's
buffer (creating it if absent); if the buffer has reached
`MESSAGE_BATCH_SIZE`, drain synchronously and return without arming a
timer; otherwise cancel any pending timer and arm a fresh one for
`MESSAGE_BATCH_TIMEOUT_MS` from now (`mapSet` replaces the old entry). -/
def enqueueStep (cfg : Config) (s : EngineState) (m : Msg) (mt : MessageType)
    (now : Nat) : EngineState :=
  let channelId := m.channelId
  let buffer := (mapGet s.buffers channelId).getD []
  let buffer' := buffer ++ [⟨m, mt, now⟩]
  let s1 : EngineState := { s with buffers := mapSet s.buffers channelId buffer' }
  if cfg.batchSize ≤ buffer'.length then
    drainStart cfg s1 channelId
  else
    { s1 with timers := mapSet s1.timers channelId (now + cfg.batchTimeoutMs) }

/-- The atomic steps of the single-threaded JS event loop that touch the
batching engine: an `addMessageToBatch` call, the firing of a channel's
batch timer (whose callback is `drainMessageBatch`), and the resumption of
a suspended drain after its backend call settles (`ok` tells whether the
`await` succeeded or threw; `server.ts` lines 116-121 delete the buffer in
both cases, since the `delete` sits after the `try/catch`). -/
inductive Event where
  | enqueue (m : Msg) (mt : MessageType) (now : Nat)
  | timerFire (channelId : String)
  | complete (channelId : String) (ok : Bool)
deriving DecidableEq, Repr

/-- The transition function: `timerFire` only acts when the channel's timer
entry is still present (a cancelled `setTimeout` never runs), and
`complete` only when a drain for that channel is actually suspended. -/
def step (cfg : Config) (s : EngineState) : Event → EngineState
  | Event.enqueue m mt now => enqueueStep cfg s m mt now
  | Event.timerFire ch =>
    match mapGet s.timers ch with
    | some _ => drainStart cfg s ch
    | none => s
  | Event.complete ch _ =>
    if hasChannel s.inflight ch then
      { s with
          inflight := removeFirst s.inflight ch
          buffers := mapDelete s.buffers ch }
    else s

/-- Run a sequence of event-loop steps from the initial state. -/
def run (cfg : Config) (evs : List Event) : EngineState :=
  evs.foldl (step cfg) initState

/-! ### The `messageCreate` handler (`server.ts` lines 259-349) -/

/-- `message.content.startsWith('!')` (`server.ts` line 279). -/
def contentStartsWithBang (m : Msg) : Bool :=
  match m.content.data with
  | [] => false
  | c :: _ => c = '!'

/-- The channel allow-list filter (`server.ts` lines 260-264):
`CHANNEL_ID && message.channel.id !== CHANNEL_ID`; a configured but empty
`CHANNEL_ID` is falsy in JS and filters nothing. -/
def channelFilterRejects (cfg : Config) (m : Msg) : Bool :=
  match cfg.channelId with
  | none => false
  | some cid => if cid = "" then false else if m.channelId = cid then false else true

/-- The label computed inside the mention/reply branch (`server.ts`
lines 309-325): default `MENTION`; when the event is a reply whose fetched
original was authored by the bot, `REPLY`; when it is a reply to someone
else, `MENTION` if the bot is mentioned and `GENERIC` otherwise. -/
def classifyMention (botId : String) (m : Msg) : MessageType :=
  match m.reference with
  | none => MessageType.MENTION
  | some orig =>
    if orig.authorId = botId then MessageType.REPLY
    else if m.mentionsBot = true then MessageType.MENTION
    else MessageType.GENERIC

/-- The rewritten outgoing text `msgContent` computed at `server.ts`
lines 309-320: for a reply to the bot, the original message's truncated
quotation is prefixed; otherwise the raw content.  (`server.ts` computes
this value but never passes it on: both line 329 `addMessageToBatch(message,
messageType)` and line 334 `sendMessage(message, messageType, canRespond)`
receive the original `message` object only.) -/
def rewrittenContent (botId : String) (m : Msg) : String :=
  match m.reference with
  | none => m.content
  | some orig =>
    if orig.authorId = botId then
      "[Replying to previous message: \"" ++ truncateMessage orig.content 100 ++
        "\"] " ++ m.content
    else m.content

/-- The label with which the `messageCreate` handler dispatches a message,
or `none` when the handler returns without dispatching (`server.ts`
lines 259-349, with `MESSAGE_REPLY_TRUNCATE_LENGTH = 100`): the channel
filter, the self filter, the bot filter and the `!` filter come first, then
the DM branch, the mention/reply branch, and the generic catch-all. -/
def handlerLabel (cfg : Config) (botId : String) (m : Msg) : Option MessageType :=
  if channelFilterRejects cfg m = true then none
  else if m.authorId = botId then none
  else if m.authorIsBot = true ∧ cfg.respondToBots = false then none
  else if contentStartsWithBang m = true then none
  else if m.inGuild = false then
    (if cfg.respondToDms = true then some MessageType.DM else none)
  else if cfg.respondToMentions = true ∧
      (m.mentionsBot = true ∨ m.reference.isSome = true) then
    some (classifyMention botId m)
  else if cfg.respondToGeneric = true then some MessageType.GENERIC
  else none

/-- The backend call an immediate (non-batched) dispatch starts
(`server.ts` line 181 via `processAndSendMessage`, or line 334 on the
mention/reply path): `sendMessage(message, messageType, canRespond)` with no
fourth argument, so no payload override and no batch snapshot. -/
def immediateCall (cfg : Config) (m : Msg) (mt : MessageType) : BackendCall :=
  { channelId := m.channelId
    msg := m
    messageType := mt
    canRespond := shouldRespondInChannel cfg m.channelId
    payloadOverride := none
    snapshot := [] }

/-- The effect of one `messageCreate` event on the engine state: nothing
when the handler ignores the message; an `addMessageToBatch` call when
batching is enabled; the start of an immediate backend call otherwise. -/
def handleMessage (cfg : Config) (botId : String) (s : EngineState) (m : Msg)
    (now : Nat) : EngineState :=
  match handlerLabel cfg botId m with
  | none => s
  | some mt =>
    if cfg.batchEnabled = true then enqueueStep cfg s m mt now
    else { s with calls := s.calls ++ [immediateCall cfg m mt] }

/-! ### Exception propagation on the three dispatch code paths -/

/-- The shared backend-then-reply sequence, without any exception handling:
`const msg = await sendMessage(...); if (msg !== "" && canRespond) await
message.reply(msg);` — exactly the body of `server.ts` lines 334-339 (and
the body of the `try` blocks at lines 106-115 and 179-187).  The backend
outcome and the platform reply outcome are inputs; the result is either the
list of replies sent, or the exception that escaped. -/
def dispatchOnce (canRespond : Bool) (backendResult : Except String String)
    (replyResult : Except String Unit) : Except String (List String) :=
  match backendResult with
  | Except.error e => Except.error e
  | Except.ok msg =>
    if msg ≠ "" ∧ canRespond = true then
      match replyResult with
      | Except.error e => Except.error e
      | Except.ok _ => Except.ok [msg]
    else Except.ok []

/-- A `try { ... } catch (error) { console.error(...) }` wrapper: an escaped
exception is logged and swallowed, leaving no replies sent. -/
def catchLogged (r : Except String (List String)) : Except String (List String) :=
  match r with
  | Except.error _ => Except.ok []
  | Except.ok sends => Except.ok sends

/-- Whether a dispatch finished without an exception escaping. -/
def dispatchOk : Except String (List String) → Bool
  | Except.ok _ => true
  | Except.error _ => false

/-- The immediate mention/reply path of the `messageCreate` handler
(`server.ts` lines 334-339): NOT wrapped in `try/catch`. -/
def mentionImmediateDispatch (canRespond : Bool)
    (backendResult : Except String String) (replyResult : Except String Unit) :
    Except String (List String) :=
  dispatchOnce canRespond backendResult replyResult

/-- The immediate path of `processAndSendMessage` (`server.ts`
lines 178-191): the backend call and reply are inside `try/catch`. -/
def processAndSendDispatch (canRespond : Bool)
    (backendResult : Except String String) (replyResult : Except String Unit) :
    Except String (List String) :=
  catchLogged (dispatchOnce canRespond backendResult replyResult)

/-- The backend-call section of `drainMessageBatch` (`server.ts`
lines 106-118): the backend call and reply are inside `try/catch`. -/
def drainBackendDispatch (canRespond : Bool)
    (backendResult : Except String String) (replyResult : Except String Unit) :
    Except String (List String) :=
  catchLogged (dispatchOnce canRespond backendResult replyResult)

/-! ### The random timer's delay computation (`server.ts` lines 201-209) -/

/-- `minMinutes + Math.floor(Math.random() * (TIMER_INTERVAL_MINUTES -
minMinutes))` with `minMinutes = 1`: the random draw `r` is a real in
`[0, 1)` (modelled as a rational), the configured maximum `T` an integer,
and `Math.floor` rounds towards negative infinity exactly as `Int.floor`. -/
def randomMinutes (T : Int) (r : ℚ) : Int :=
  1 + ⌊r * ((T : ℚ) - 1)⌋

/-- `const delay = randomMinutes * 60 * 1000` (`server.ts` line 209). -/
def timerDelayMs (T : Int) (r : ℚ) : Int :=
  randomMinutes T r * 60 * 1000

/-! ### Derived notions used by the statements -/

/-- The text a backend call effectively carries (see `sendMessagePayload`). -/
def callText (c : BackendCall) : String :=
  sendMessagePayload c.msg c.payloadOverride

/-- No drain for this channel is currently suspended at its backend call. -/
def inflightFree (s : EngineState) (ch : String) : Bool :=
  !(hasChannel s.inflight ch)

/-- The restriction a single event must satisfy in a `goodTrace`: an
enqueue may only land on a channel with no drain in flight; timer firings
and completions are unrestricted. -/
def eventAllowed (s : EngineState) : Event → Bool
  | Event.enqueue m _ _ => inflightFree s m.channelId
  | Event.timerFire _ => true
  | Event.complete _ _ => true

/-- Traces in which no `addMessageToBatch` call lands on a channel while a
drain for that same channel is suspended at its backend call.  (The code
does not rule such interleavings out; the invariants of the spec only
survive on traces of this shape.) -/
def goodTrace (cfg : Config) : EngineState → List Event → Bool
  | _, [] => true
  | s, e :: rest => eventAllowed s e && goodTrace cfg (step cfg s e) rest

/-- A channel's buffer entry exists and is non-empty. -/
def bufNonempty (s : EngineState) (ch : String) : Prop :=
  ∃ l, mapGet s.buffers ch = some l ∧ l ≠ []

/-- The inductive invariant of the batching engine: unique keys in both
maps; a pending timer implies a non-empty buffer; a suspended drain implies
its timer is gone and its buffer is still attached and non-empty; at most
one suspended drain per channel. -/
def Inv (s : EngineState) : Prop :=
  keysNodup s.buffers ∧ keysNodup s.timers ∧
  (∀ ch, mapGet s.timers ch ≠ none → bufNonempty s ch) ∧
  (∀ ch, hasChannel s.inflight ch = true →
    mapGet s.timers ch = none ∧ bufNonempty s ch) ∧
  (∀ ch, countOcc s.inflight ch ≤ 1)

/-- View an (message, label, arrival time) triple as an enqueue event. -/
def enqEvent (x : Msg × MessageType × Nat) : Event :=
  Event.enqueue x.1 x.2.1 x.2.2

/-- View an (message, label, arrival time) triple as a buffer entry. -/
def enqItem (x : Msg × MessageType × Nat) : BatchedMessage :=
  { message := x.1, messageType := x.2.1, timestamp := x.2.2 }

/-! ### Concrete configurations and messages used by the closed theorems -/

/-- A configuration with batching enabled at the default size and timeout. -/
def cfgB : Config :=
  { respondToDms := true, respondToMentions := true, respondToBots := false
    respondToGeneric := true, channelId := none, responseChannelId := none
    batchEnabled := true, batchSize := 10, batchTimeoutMs := 30000 }

/-- Batching configuration with size limit 2. -/
def cfgS2 : Config :=
  { cfgB with batchSize := 2 }

/-- A configuration with batching disabled and every response toggle on. -/
def cfgAll : Config :=
  { respondToDms := true, respondToMentions := true, respondToBots := true
    respondToGeneric := true, channelId := none, responseChannelId := none
    batchEnabled := false, batchSize := 10, batchTimeoutMs := 30000 }

/-- A guild message mentioning the bot, on channel `c1`. -/
def mA : Msg :=
  { channelId := "c1", channelName := some "general", authorId := "u1"
    authorName := "alice", authorIsBot := false, content := "hi"
    inGuild := true, mentionsBot := true, reference := none }

/-- A second message on channel `c1`. -/
def mB : Msg :=
  { mA with content := "second", authorId := "u2", authorName := "ben" }

/-- A direct message on channel `c3`. -/
def mC3 : Msg :=
  { channelId := "c3", channelName := none, authorId := "u3"
    authorName := "carol", authorIsBot := false, content := "hello there"
    inGuild := false, mentionsBot := false, reference := none }

/-- A guild message that is a reply to a different author, without
mentioning the bot, on channel `c5`. -/
def mC5 : Msg :=
  { channelId := "c5", channelName := some "general", authorId := "u5"
    authorName := "alice", authorIsBot := false, content := "hello"
    inGuild := true, mentionsBot := false
    reference := some { authorId := "u6", content := "earlier text" } }

/-- A 150-character original message text. -/
def s150 : String := String.mk (List.replicate 150 'a')

/-- A guild message replying to a bot message whose text has 150
characters. -/
def mC6 : Msg :=
  { channelId := "c6", channelName := some "general", authorId := "u7"
    authorName := "bob", authorIsBot := false, content := "hi"
    inGuild := true, mentionsBot := false
    reference := some { authorId := "bot", content := s150 } }

/-- Two messages on channel `c7` for the size-limit witness. -/
def mC7a : Msg :=
  { mA with channelId := "c7", content := "first" }

/-- Second message on channel `c7`. -/
def mC7b : Msg :=
  { mA with channelId := "c7", content := "last", authorId := "u9" }

/-- A message on channel `c8`. -/
def mC8 : Msg :=
  { mA with channelId := "c8", content := "only" }

/-- An engine state with a pending timer and a one-element buffer on
channel `cw`, used to witness the drain theorems. -/
def mW : Msg :=
  { mA with channelId := "cw", content := "buffered" }

/-- The witness state: channel `cw` holds one buffered message and an armed
timer. -/
def wState : EngineState :=
  { buffers := [("cw", [{ message := mW, messageType := MessageType.MENTION, timestamp := 7 }])]
    timers := [("cw", 30007)], inflight := [], calls := [] }

/-- An engine state with a stale timer on channel `c8` and no buffer. -/
def wState8 : EngineState :=
  { buffers := [], timers := [("c8", 999)], inflight := [], calls := [] }

/-- A message whose text starts with `!`. -/
def mBang : Msg :=
  { mA with content := "!command" }

/-! ## Theorems

First the library of small lemmas about the JS-`Map` model and the
in-flight lists, then one theorem per claim. -/

theorem mapGet_mapDelete_self {α : Type} (m : List (String × α)) (k : String) :
    mapGet (mapDelete m k) k = none := by
  induction m with
  | nil => rfl
  | cons p rest ih =>
    obtain ⟨k', v⟩ := p
    by_cases h : k' = k <;> simp [mapDelete, mapGet, h, ih]

theorem mapGet_mapDelete_ne {α : Type} (m : List (String × α)) (k k' : String)
    (h : k' ≠ k) : mapGet (mapDelete m k) k' = mapGet m k' := by
  have h2 : k ≠ k' := Ne.symm h
  induction m with
  | nil => rfl
  | cons p rest ih =>
    obtain ⟨k0, v⟩ := p
    by_cases h0 : k0 = k
    · subst h0
      simp [mapDelete, mapGet, h2, ih]
    · by_cases h1 : k0 = k'
      · subst h1
        simp [mapDelete, mapGet, h, h0, ih]
      · simp [mapDelete, mapGet, h0, h1, ih]

theorem mapGet_mapSet_self {α : Type} (m : List (String × α)) (k : String)
    (v : α) : mapGet (mapSet m k v) k = some v := by
  simp [mapSet, mapGet]

theorem mapGet_mapSet_ne {α : Type} (m : List (String × α)) (k k' : String)
    (v : α) (h : k' ≠ k) : mapGet (mapSet m k v) k' = mapGet m k' := by
  have : k ≠ k' := fun hc => h hc.symm
  simp [mapSet, mapGet, this, mapGet_mapDelete_ne m k k' h]

theorem keys_mapDelete_sublist {α : Type} (m : List (String × α)) (k : String) :
    ((mapDelete m k).map Prod.fst).Sublist (m.map Prod.fst) := by
  induction m with
  | nil => simp [mapDelete]
  | cons p rest ih =>
    obtain ⟨k0, v⟩ := p
    by_cases h : k0 = k
    · simpa [mapDelete, h] using ih.cons k0
    · simpa [mapDelete, h] using ih.cons₂ k0

theorem not_mem_keys_mapDelete {α : Type} (m : List (String × α)) (k : String) :
    k ∉ (mapDelete m k).map Prod.fst := by
  induction m with
  | nil => simp [mapDelete]
  | cons p rest ih =>
    obtain ⟨k0, v⟩ := p
    by_cases h : k0 = k
    · simpa [mapDelete, h] using ih
    · simp only [mapDelete, h, if_false, List.map_cons, List.mem_cons]
      rintro (hc | hc)
      · exact h hc.symm
      · exact ih hc

theorem keysNodup_mapDelete {α : Type} (m : List (String × α)) (k : String)
    (h : keysNodup m) : keysNodup (mapDelete m k) :=
  (keys_mapDelete_sublist m k).nodup h

theorem keysNodup_mapSet {α : Type} (m : List (String × α)) (k : String)
    (v : α) (h : keysNodup m) : keysNodup (mapSet m k v) := by
  unfold keysNodup mapSet
  simp only [List.map_cons, List.nodup_cons]
  exact ⟨not_mem_keys_mapDelete m k, keysNodup_mapDelete m k h⟩

theorem hasChannel_iff_countOcc_pos (l : List String) (a : String) :
    hasChannel l a = true ↔ 0 < countOcc l a := by
  induction l with
  | nil => simp [hasChannel, countOcc]
  | cons x rest ih =>
    by_cases h : x = a <;> simp [hasChannel, countOcc, h, ih]

theorem hasChannel_eq_false_iff (l : List String) (a : String) :
    hasChannel l a = false ↔ countOcc l a = 0 := by
  induction l with
  | nil => simp [hasChannel, countOcc]
  | cons x rest ih =>
    by_cases h : x = a <;> simp [hasChannel, countOcc, h, ih]

theorem countOcc_append (l l' : List String) (a : String) :
    countOcc (l ++ l') a = countOcc l a + countOcc l' a := by
  induction l with
  | nil => simp [countOcc]
  | cons x rest ih =>
    simp [countOcc, ih]
    omega

theorem countOcc_removeFirst_self (l : List String) (a : String) :
    countOcc (removeFirst l a) a = countOcc l a - 1 := by
  induction l with
  | nil => simp [removeFirst, countOcc]
  | cons x rest ih =>
    by_cases h : x = a <;> simp [removeFirst, countOcc, h, ih]

theorem countOcc_removeFirst_ne (l : List String) (a b : String) (h : b ≠ a) :
    countOcc (removeFirst l a) b = countOcc l b := by
  induction l with
  | nil => simp [removeFirst]
  | cons x rest ih =>
    by_cases h0 : x = a
    · subst h0
      have : x ≠ b := Ne.symm h
      simp [removeFirst, countOcc, this]
    · simp [removeFirst, countOcc, h0, ih]

theorem hasChannel_append (l l' : List String) (a : String) :
    hasChannel (l ++ l') a = (hasChannel l a || hasChannel l' a) := by
  induction l with
  | nil => simp [hasChannel]
  | cons x rest ih =>
    by_cases h : x = a <;> simp [hasChannel, h, ih]

theorem drainStart_eq_of_nonempty (cfg : Config) (s : EngineState)
    (ch : String) (l : List BatchedMessage)
    (h : mapGet s.buffers ch = some l) (hne : l ≠ []) :
    drainStart cfg s ch =
      { s with
          timers := mapDelete s.timers ch
          calls := s.calls ++ [drainCall cfg ch l]
          inflight := s.inflight ++ [ch] } := by
  cases l with
  | nil => exact absurd rfl hne
  | cons b bs => simp [drainStart, h]

theorem drainStart_eq_of_empty (cfg : Config) (s : EngineState) (ch : String)
    (h : mapGet s.buffers ch = none ∨ mapGet s.buffers ch = some []) :
    drainStart cfg s ch = { s with timers := mapDelete s.timers ch } := by
  rcases h with h | h <;> simp [drainStart, h]

theorem enqueueStep_below (cfg : Config) (s : EngineState) (m : Msg)
    (mt : MessageType) (now : Nat)
    (h : ((mapGet s.buffers m.channelId).getD []).length + 1 < cfg.batchSize) :
    enqueueStep cfg s m mt now =
      { s with
          buffers := mapSet s.buffers m.channelId
            (((mapGet s.buffers m.channelId).getD []) ++
              [({ message := m, messageType := mt, timestamp := now } : BatchedMessage)])
          timers := mapSet s.timers m.channelId (now + cfg.batchTimeoutMs) } := by
  have hc : ¬ cfg.batchSize ≤
      ((((mapGet s.buffers m.channelId).getD []) ++
        [({ message := m, messageType := mt, timestamp := now } : BatchedMessage)]).length) := by
    simp only [List.length_append, List.length_cons, List.length_nil]
    omega
  simp only [enqueueStep, hc, if_false]

theorem enqueueStep_atLimit (cfg : Config) (s : EngineState) (m : Msg)
    (mt : MessageType) (now : Nat)
    (h : cfg.batchSize ≤
      ((((mapGet s.buffers m.channelId).getD []) ++
        [({ message := m, messageType := mt, timestamp := now } : BatchedMessage)]).length)) :
    enqueueStep cfg s m mt now =
      drainStart cfg
        { s with
            buffers := mapSet s.buffers m.channelId
              (((mapGet s.buffers m.channelId).getD []) ++
                [({ message := m, messageType := mt, timestamp := now } : BatchedMessage)]) }
        m.channelId := by
  simp only [enqueueStep, h, if_true]

/-- C1 (amended): executing the synchronous part of Drain
(`drainMessageBatch`) on a non-empty buffer cancels and removes the
channel's pending timer before the agent backend is invoked and starts
exactly one backend call, but — contrary to the original claim — the
channel's buffer entry is still attached in the buffer map at the moment
the backend call starts; the buffer entry is deleted only when the
suspended drain completes, and that deletion does happen whether the
backend call succeeded or failed (`ok` is arbitrary). -/
theorem drain_cancels_timer_first_deletes_buffer_after (cfg : Config)
    (s : EngineState) (ch : String) (l : List BatchedMessage) (ok : Bool)
    (h : mapGet s.buffers ch = some l) (hne : l ≠ []) :
    mapGet (drainStart cfg s ch).timers ch = none ∧
    mapGet (drainStart cfg s ch).buffers ch = some l ∧
    (drainStart cfg s ch).calls = s.calls ++ [drainCall cfg ch l] ∧
    mapGet (step cfg (drainStart cfg s ch) (Event.complete ch ok)).buffers ch
      = none := by
  rw [drainStart_eq_of_nonempty cfg s ch l h hne]
  refine ⟨mapGet_mapDelete_self _ _, h, rfl, ?_⟩
  have hhc : hasChannel (s.inflight ++ [ch]) ch = true := by
    simp [hasChannel_append, hasChannel]
  simp only [step, hhc, if_true]
  exact mapGet_mapDelete_self _ _

/-- Witness for C1's amended theorem at a concrete state: channel `cw`
holds one buffered message and a pending timer, and the backend call
fails (`ok = false`). -/
theorem drain_cancels_timer_first_witness :
    (mapGet wState.buffers "cw" =
        some [{ message := mW, messageType := MessageType.MENTION, timestamp := 7 }] ∧
      ([{ message := mW, messageType := MessageType.MENTION, timestamp := 7 }] :
        List BatchedMessage) ≠ []) ∧
    (mapGet (drainStart cfgB wState "cw").timers "cw" = none ∧
      mapGet (drainStart cfgB wState "cw").buffers "cw" =
        some [{ message := mW, messageType := MessageType.MENTION, timestamp := 7 }] ∧
      (drainStart cfgB wState "cw").calls = wState.calls ++
        [drainCall cfgB "cw"
          [{ message := mW, messageType := MessageType.MENTION, timestamp := 7 }]] ∧
      mapGet (step cfgB (drainStart cfgB wState "cw")
        (Event.complete "cw" false)).buffers "cw" = none) :=
  ⟨⟨by decide, by decide⟩,
    drain_cancels_timer_first_deletes_buffer_after cfgB wState "cw"
      [{ message := mW, messageType := MessageType.MENTION, timestamp := 7 }] false
      (by decide) (by decide)⟩

/-- C1 is false as stated on the code: after one enqueue and the timer
firing, the drain's backend call has started (one call is recorded and the
drain is suspended in flight) while the channel's buffer entry is still
present in the buffer map — the buffer is not detached when the backend
call starts (`channelMessageBuffers.delete` only runs at `server.ts`
line 121, after the `await`). -/
theorem buffer_still_attached_during_backend_call :
    (run cfgB [Event.enqueue mA MessageType.MENTION 0, Event.timerFire "c1"]).inflight = ["c1"] ∧
    (run cfgB [Event.enqueue mA MessageType.MENTION 0, Event.timerFire "c1"]).calls.length = 1 ∧
    mapGet (run cfgB [Event.enqueue mA MessageType.MENTION 0,
        Event.timerFire "c1"]).buffers "c1" =
      some [{ message := mA, messageType := MessageType.MENTION, timestamp := 0 }] :=
  ⟨by decide, by decide, by decide⟩

/-- C3 (amended): a batch drain does not special-case a one-element buffer:
its payload is always the enumerated wrapper with the `[Batch of 1
messages from ...]` count header around the single formatted line, whereas
the immediate-dispatch path passes no consolidated payload, so the raw
event text reaches the backend; consequently the two payloads differ for
every single event (the wrapped payload is strictly longer than the raw
text). -/
theorem single_item_drain_payload_is_wrapped (cfg : Config) (m : Msg)
    (mt : MessageType) (ts : Nat) :
    callText (drainCall cfg m.channelId
        [{ message := m, messageType := mt, timestamp := ts }]) =
      "[Batch of " ++ toString (1 : Nat) ++ " messages from " ++
        channelDisplay m.channelId m.channelName ++ "]\n" ++
        (toString (1 : Nat) ++ ". " ++
          provenanceTag m.authorName m.authorId mt ++ " " ++ m.content) ∧
    callText (immediateCall cfg m mt) = m.content ∧
    callText (drainCall cfg m.channelId
        [{ message := m, messageType := mt, timestamp := ts }]) ≠
      callText (immediateCall cfg m mt) := by
  refine ⟨rfl, rfl, ?_⟩
  intro hcontra
  have hlen := congrArg String.length hcontra
  have e1 : ("[Batch of " : String).length = 10 := rfl
  have e2 : (toString (1 : Nat)).length = 1 := rfl
  have e3 : (" messages from " : String).length = 15 := rfl
  have e4 : ("]\n" : String).length = 2 := rfl
  have e5 : (". " : String).length = 2 := rfl
  have e6 : (" " : String).length = 1 := rfl
  simp only [callText, drainCall, immediateCall, sendMessagePayload,
    Option.getD_some, Option.getD_none, batchMessageText, lastOf, formatLines,
    formatLine, joinLines, List.length_cons, List.length_nil,
    String.length_append, e1, e2, e3, e4, e5, e6] at hlen
  omega

/-- C3 is false as stated on the code, at a concrete one-message buffer: the
payload the batch drain sends for a single DM is the wrapped enumerated
text with a count header, not the raw per-event text that the
immediate-dispatch path sends for the same event. -/
theorem single_item_batch_payload_differs_concrete :
    callText (drainCall cfgB "c3"
        [{ message := mC3, messageType := MessageType.DM, timestamp := 0 }]) =
      "[Batch of 1 messages from channel c3]\n1. [carol (id=u3) sent you a DM] hello there" ∧
    callText (immediateCall cfgAll mC3 MessageType.DM) = "hello there" ∧
    callText (drainCall cfgB "c3"
        [{ message := mC3, messageType := MessageType.DM, timestamp := 0 }]) ≠
      callText (immediateCall cfgAll mC3 MessageType.DM) :=
  ⟨by decide, by decide, by decide⟩

/-- C4 (amended): failures are swallowed on the two `try/catch`-wrapped
dispatch paths — the immediate path of `processAndSendMessage` and the
backend section of `drainMessageBatch` — for every backend and reply
outcome; but the immediate mention/reply path of the `messageCreate`
handler is not wrapped, and both failure modes escape it unchanged: a
backend failure (for any `canRespond` and reply outcome), and a failed
platform reply (which the path attempts exactly when the backend returned
a non-empty message and the channel allows responding). -/
theorem wrapped_paths_swallow_failures_mention_path_does_not
    (canRespond : Bool) (backendResult : Except String String)
    (replyResult : Except String Unit) (e e2 msg : String) (hmsg : msg ≠ "") :
    dispatchOk (processAndSendDispatch canRespond backendResult replyResult) = true ∧
    dispatchOk (drainBackendDispatch canRespond backendResult replyResult) = true ∧
    mentionImmediateDispatch canRespond (Except.error e) replyResult =
      Except.error e ∧
    mentionImmediateDispatch true (Except.ok msg) (Except.error e2) =
      Except.error e2 := by
  refine ⟨?_, ?_, rfl, ?_⟩
  · cases backendResult with
    | error e' => rfl
    | ok m =>
      by_cases hc : m ≠ "" ∧ canRespond = true
      · cases replyResult <;>
          simp [processAndSendDispatch, dispatchOnce, catchLogged, dispatchOk, hc]
      · simp [processAndSendDispatch, dispatchOnce, catchLogged, dispatchOk, hc]
  · cases backendResult with
    | error e' => rfl
    | ok m =>
      by_cases hc : m ≠ "" ∧ canRespond = true
      · cases replyResult <;>
          simp [drainBackendDispatch, dispatchOnce, catchLogged, dispatchOk, hc]
      · simp [drainBackendDispatch, dispatchOnce, catchLogged, dispatchOk, hc]
  · simp [mentionImmediateDispatch, dispatchOnce, hmsg]

/-- Witness for C4's amended theorem: a non-empty backend response `"hi"`
whose platform reply fails — the wrapped paths still return cleanly, while
on the unwrapped mention path both the backend error and the reply error
escape. -/
theorem mention_reply_failure_escapes_witness :
    ("hi" : String) ≠ "" ∧
    (dispatchOk (processAndSendDispatch true (Except.ok "hi")
        (Except.error "reply failed")) = true ∧
      dispatchOk (drainBackendDispatch true (Except.ok "hi")
        (Except.error "reply failed")) = true ∧
      mentionImmediateDispatch true (Except.error "backend boom")
        (Except.error "reply failed") = Except.error "backend boom" ∧
      mentionImmediateDispatch true (Except.ok "hi")
        (Except.error "reply failed") = Except.error "reply failed") :=
  ⟨by decide,
    wrapped_paths_swallow_failures_mention_path_does_not true (Except.ok "hi")
      (Except.error "reply failed") "backend boom" "reply failed" "hi" (by decide)⟩

/-- C4 is false as stated on the code: on the immediate mention/reply path
(`server.ts` lines 334-339, which has no `try/catch`), a backend failure
propagates out of the message-handling code instead of being caught. -/
theorem mention_path_error_escapes_concrete :
    mentionImmediateDispatch true (Except.error "backend down") (Except.ok ()) =
      Except.error "backend down" := rfl

/-- C5 (amended): the `messageCreate` handler labels a message that passed
the channel/self/bot/`!` filters as follows — a private (no-guild) message
is `DM` (when DM responses are enabled); a guild message that mentions the
agent and is not a reply to the agent's own message is `MENTION`; a guild
reply to a different author without a mention is `GENERIC`, not `MENTION`
as originally claimed; and a guild message with neither mention nor reply
is `GENERIC` when generic responses are enabled. -/
theorem classifier_priority_labels (cfg : Config) (botId : String) (m : Msg)
    (hcf : channelFilterRejects cfg m = false)
    (hself : ¬ m.authorId = botId)
    (hbot : ¬ (m.authorIsBot = true ∧ cfg.respondToBots = false))
    (hbang : contentStartsWithBang m = false) :
    (m.inGuild = false → cfg.respondToDms = true →
      handlerLabel cfg botId m = some MessageType.DM) ∧
    (m.inGuild = true → cfg.respondToMentions = true → m.mentionsBot = true →
      (∀ orig, m.reference = some orig → ¬ orig.authorId = botId) →
      handlerLabel cfg botId m = some MessageType.MENTION) ∧
    (m.inGuild = true → cfg.respondToMentions = true → m.mentionsBot = false →
      ∀ orig, m.reference = some orig → ¬ orig.authorId = botId →
      handlerLabel cfg botId m = some MessageType.GENERIC) ∧
    (m.inGuild = true → m.mentionsBot = false → m.reference = none →
      cfg.respondToGeneric = true →
      handlerLabel cfg botId m = some MessageType.GENERIC) := by
  refine ⟨?_, ?_, ?_, ?_⟩
  · intro hg hdm
    simp [handlerLabel, hcf, hself, hbot, hbang, hg, hdm]
  · intro hg hrm hmb href
    have hcls : classifyMention botId m = MessageType.MENTION := by
      unfold classifyMention
      cases hr : m.reference with
      | none => rfl
      | some orig => simp [href orig hr, hmb]
    simp [handlerLabel, hcf, hself, hbot, hbang, hg, hrm, hmb, hcls]
  · intro hg hrm hmb orig hr horig
    have hcls : classifyMention botId m = MessageType.GENERIC := by
      simp [classifyMention, hr, horig, hmb]
    have hsome : m.reference.isSome = true := by simp [hr]
    simp [handlerLabel, hcf, hself, hbot, hbang, hg, hrm, hsome, hcls]
  · intro hg hmb hr hgen
    simp [handlerLabel, hcf, hself, hbot, hbang, hg, hmb, hr, hgen]

/-- Witness for C5's amended theorem at a concrete configuration and
message (all toggles on, a mentioning guild message that is not a reply). -/
theorem classifier_priority_labels_witness :
    (channelFilterRejects cfgAll mA = false ∧ ¬ mA.authorId = "bot" ∧
      ¬ (mA.authorIsBot = true ∧ cfgAll.respondToBots = false) ∧
      contentStartsWithBang mA = false) ∧
    ((mA.inGuild = false → cfgAll.respondToDms = true →
      handlerLabel cfgAll "bot" mA = some MessageType.DM) ∧
    (mA.inGuild = true → cfgAll.respondToMentions = true → mA.mentionsBot = true →
      (∀ orig, mA.reference = some orig → ¬ orig.authorId = "bot") →
      handlerLabel cfgAll "bot" mA = some MessageType.MENTION) ∧
    (mA.inGuild = true → cfgAll.respondToMentions = true → mA.mentionsBot = false →
      ∀ orig, mA.reference = some orig → ¬ orig.authorId = "bot" →
      handlerLabel cfgAll "bot" mA = some MessageType.GENERIC) ∧
    (mA.inGuild = true → mA.mentionsBot = false → mA.reference = none →
      cfgAll.respondToGeneric = true →
      handlerLabel cfgAll "bot" mA = some MessageType.GENERIC)) :=
  ⟨⟨by decide, by decide, by decide, by decide⟩,
    classifier_priority_labels cfgAll "bot" mA (by decide) (by decide)
      (by decide) (by decide)⟩

/-- C5 is false as stated on the code: a guild message that is a reply to a
different author but does NOT mention the agent is labelled `GENERIC` by
the handler (`server.ts` line 323), while the claim says such a reply gets
`Mention`. -/
theorem reply_without_mention_is_generic_concrete :
    handlerLabel cfgAll "bot" mC5 = some MessageType.GENERIC ∧
    some MessageType.GENERIC ≠ some MessageType.MENTION :=
  ⟨by decide, by decide⟩

set_option maxRecDepth 20000 in
/-- C6 (code bug): for a reply to the bot's own 150-character message the
handler does assign the `REPLY` label and does compute the quotation-
prefixed text (first 97 characters plus `"..."`, 100 characters in all,
exactly as the claim describes), but it stores it in the dead local
`msgContent` and then calls `sendMessage(message, messageType, canRespond)`
(`server.ts` line 334) without it — so the payload that reaches the agent
backend is the raw text `"hi"`, not the quotation-prefixed text. -/
theorem reply_quotation_computed_but_dropped :
    handlerLabel cfgAll "bot" mC6 = some MessageType.REPLY ∧
    truncateMessage s150 100 = String.mk (List.replicate 97 'a') ++ "..." ∧
    (truncateMessage s150 100).length = 100 ∧
    rewrittenContent "bot" mC6 =
      "[Replying to previous message: \"" ++
        (String.mk (List.replicate 97 'a') ++ "...") ++ "\"] hi" ∧
    (handleMessage cfgAll "bot" initState mC6 0).calls =
      [immediateCall cfgAll mC6 MessageType.REPLY] ∧
    callText (immediateCall cfgAll mC6 MessageType.REPLY) = "hi" ∧
    callText (immediateCall cfgAll mC6 MessageType.REPLY) ≠
      rewrittenContent "bot" mC6 := by
  refine ⟨by decide, ?_, ?_, ?_, by decide, by decide, ?_⟩
  · decide
  · decide
  · decide
  · decide

/-- C8 (confirmed): an enqueue that leaves the buffer below the size limit
arms (or re-arms, replacing any previously pending timer) the channel's
single-shot timer with deadline `now + MESSAGE_BATCH_TIMEOUT_MS`, i.e. the
timeout is measured from the most recent enqueue; the buffer ends with the
new item appended in arrival order. -/
theorem enqueue_below_limit_rearms_timer (cfg : Config) (s : EngineState)
    (m : Msg) (mt : MessageType) (now : Nat)
    (h : ((mapGet s.buffers m.channelId).getD []).length + 1 < cfg.batchSize) :
    mapGet (enqueueStep cfg s m mt now).timers m.channelId =
      some (now + cfg.batchTimeoutMs) ∧
    mapGet (enqueueStep cfg s m mt now).buffers m.channelId =
      some (((mapGet s.buffers m.channelId).getD []) ++
        [({ message := m, messageType := mt, timestamp := now } : BatchedMessage)]) := by
  rw [enqueueStep_below cfg s m mt now h]
  exact ⟨mapGet_mapSet_self _ _ _, mapGet_mapSet_self _ _ _⟩

/-- Witness for C8 at a concrete state in which an older timer (deadline
999) is pending for channel `c8`: the enqueue at time 50 replaces it with
deadline `50 + 30000`. -/
theorem enqueue_below_limit_rearms_timer_witness :
    (((mapGet wState8.buffers mC8.channelId).getD []).length + 1 < cfgB.batchSize) ∧
    (mapGet (enqueueStep cfgB wState8 mC8 MessageType.GENERIC 50).timers mC8.channelId =
      some (50 + cfgB.batchTimeoutMs) ∧
    mapGet (enqueueStep cfgB wState8 mC8 MessageType.GENERIC 50).buffers mC8.channelId =
      some (((mapGet wState8.buffers mC8.channelId).getD []) ++
        [({ message := mC8, messageType := MessageType.GENERIC, timestamp := 50 } : BatchedMessage)])) :=
  ⟨by decide,
    enqueue_below_limit_rearms_timer cfgB wState8 mC8 MessageType.GENERIC 50 (by decide)⟩

/-- C9 (amended): for a configured maximum `T ≥ 2` minutes and any random
draw `r ∈ [0, 1)`, the computed delay lies in `[1 minute, T minutes)`; for
`T = 1` the delay is exactly 1 minute (not less than the configured
maximum); and for `T = 0` the 1-minute floor FAILS — `Math.floor` of the
negative product makes the delay 0 for every `r > 0`. -/
theorem timer_delay_bounds (T : Int) (r : ℚ) (h0 : 0 ≤ r) (h1 : r < 1) :
    (2 ≤ T → 60000 ≤ timerDelayMs T r ∧ timerDelayMs T r < T * 60000) ∧
    timerDelayMs 1 r = 60000 ∧
    (0 < r → timerDelayMs 0 r = 0) := by
  refine ⟨?_, ?_, ?_⟩
  · intro hT
    have hT1 : (1 : ℚ) ≤ (T : ℚ) - 1 := by
      have : (2 : ℚ) ≤ (T : ℚ) := by exact_mod_cast hT
      linarith
    have hx0 : 0 ≤ r * ((T : ℚ) - 1) := mul_nonneg h0 (by linarith)
    have hfl0 : 0 ≤ ⌊r * ((T : ℚ) - 1)⌋ := Int.floor_nonneg.mpr hx0
    have hxlt : r * ((T : ℚ) - 1) < (T : ℚ) - 1 :=
      mul_lt_of_lt_one_left (by linarith) h1
    have hflt : ⌊r * ((T : ℚ) - 1)⌋ < T - 1 := by
      rw [Int.floor_lt]
      push_cast
      linarith
    unfold timerDelayMs randomMinutes
    constructor <;> nlinarith [hfl0, hflt]
  · unfold timerDelayMs randomMinutes
    norm_num
  · intro hr
    unfold timerDelayMs randomMinutes
    have hfl : ⌊r * (((0 : Int) : ℚ) - 1)⌋ = -1 := by
      have h2 : r * (((0 : Int) : ℚ) - 1) = -r := by push_cast; ring
      rw [h2, Int.floor_eq_iff]
      push_cast
      constructor <;> linarith
    rw [hfl]
    ring

/-- Witness for C9's amended theorem at `T = 3`, `r = 1/2`. -/
theorem timer_delay_bounds_witness :
    ((0 : ℚ) ≤ 1 / 2 ∧ (1 / 2 : ℚ) < 1) ∧
    ((2 ≤ (3 : Int) → 60000 ≤ timerDelayMs 3 (1 / 2) ∧
      timerDelayMs 3 (1 / 2) < 3 * 60000) ∧
    timerDelayMs 1 (1 / 2) = 60000 ∧
    (0 < (1 / 2 : ℚ) → timerDelayMs 0 (1 / 2) = 0)) :=
  ⟨⟨by norm_num, by norm_num⟩,
    timer_delay_bounds 3 (1 / 2) (by norm_num) (by norm_num)⟩

/-- C9 is false as stated on the code: with a configured maximum of 0
minutes and the in-range draw `r = 1/2`, the computed delay is 0 — the
claimed unconditional 1-minute floor does not hold. -/
theorem timer_delay_floor_fails_at_zero :
    ((0 : ℚ) ≤ 1 / 2 ∧ (1 / 2 : ℚ) < 1) ∧
    timerDelayMs 0 (1 / 2) = 0 ∧
    ¬ (60000 ≤ timerDelayMs 0 (1 / 2)) := by
  have hfl : ⌊(1 / 2 : ℚ) * (((0 : Int) : ℚ) - 1)⌋ = -1 := by
    have h2 : (1 / 2 : ℚ) * (((0 : Int) : ℚ) - 1) = -(1 / 2) := by push_cast; ring
    rw [h2, Int.floor_eq_iff]
    norm_num
  have hdelay : timerDelayMs 0 (1 / 2) = 0 := by
    unfold timerDelayMs randomMinutes
    rw [hfl]
    ring
  refine ⟨⟨by norm_num, by norm_num⟩, hdelay, ?_⟩
  rw [hdelay]
  norm_num

/-- C10 (confirmed): a message written by the bot itself, or one whose text
starts with `!`, or one from another bot while `RESPOND_TO_BOTS` is off, is
dropped by the `messageCreate` handler before classification: no label is
assigned and the engine state — buffers, timers, in-flight drains and the
backend-call log — is left untouched, so nothing is enqueued, no backend
call starts and no reply is sent. -/
theorem filtered_messages_are_ignored (cfg : Config) (botId : String)
    (m : Msg) (s : EngineState) (now : Nat)
    (h : m.authorId = botId ∨ contentStartsWithBang m = true ∨
      (m.authorIsBot = true ∧ cfg.respondToBots = false)) :
    handlerLabel cfg botId m = none ∧
    handleMessage cfg botId s m now = s := by
  have hl : handlerLabel cfg botId m = none := by
    unfold handlerLabel
    rcases h with h | h | ⟨h1, h2⟩
    · simp [h, ite_self]
    · simp [h, ite_self]
    · simp [h1, h2, ite_self]
  exact ⟨hl, by simp [handleMessage, hl]⟩

theorem run_enqueues_below (cfg : Config) (ch : String)
    (xs : List (Msg × MessageType × Nat)) :
    ∀ (s : EngineState) (acc : List BatchedMessage),
      (∀ x ∈ xs, x.1.channelId = ch) →
      (mapGet s.buffers ch).getD [] = acc →
      acc.length + xs.length < cfg.batchSize →
      ((xs.map enqEvent).foldl (step cfg) s).calls = s.calls ∧
      ((xs.map enqEvent).foldl (step cfg) s).inflight = s.inflight ∧
      (mapGet ((xs.map enqEvent).foldl (step cfg) s).buffers ch).getD []
        = acc ++ xs.map enqItem := by
  induction xs with
  | nil =>
    intro s acc _ hacc _
    simpa using hacc
  | cons x rest ih =>
    intro s acc hch hacc hlen
    have hxch : x.1.channelId = ch := hch x (List.mem_cons_self x rest)
    have hacc' : (mapGet s.buffers x.1.channelId).getD [] = acc := by
      rw [hxch]; exact hacc
    have hbelow : ((mapGet s.buffers x.1.channelId).getD []).length + 1 < cfg.batchSize := by
      rw [hacc']
      simp only [List.length_cons] at hlen
      omega
    simp only [List.map_cons, List.foldl_cons]
    have hstep : step cfg s (enqEvent x) = enqueueStep cfg s x.1 x.2.1 x.2.2 := rfl
    rw [hstep, enqueueStep_below cfg s x.1 x.2.1 x.2.2 hbelow, hacc']
    have hch' : ∀ y ∈ rest, y.1.channelId = ch := fun y hy => hch y (List.mem_cons_of_mem x hy)
    have hacc2 : (mapGet (mapSet s.buffers x.1.channelId
        (acc ++ [({ message := x.1, messageType := x.2.1, timestamp := x.2.2 } : BatchedMessage)])) ch).getD []
        = acc ++ [enqItem x] := by
      rw [hxch, mapGet_mapSet_self]
      rfl
    have hlen2 : (acc ++ [enqItem x]).length + rest.length < cfg.batchSize := by
      simp only [List.length_append, List.length_cons, List.length_nil] at hlen ⊢
      omega
    obtain ⟨hcalls, hin, hbuf⟩ := ih
      { s with
          buffers := mapSet s.buffers x.1.channelId
            (acc ++ [({ message := x.1, messageType := x.2.1, timestamp := x.2.2 } : BatchedMessage)])
          timers := mapSet s.timers x.1.channelId (x.2.2 + cfg.batchTimeoutMs) }
      (acc ++ [enqItem x]) hch' hacc2 hlen2
    refine ⟨hcalls, hin, ?_⟩
    rw [hbuf]
    simp [enqItem]

/-- C7 (confirmed): starting from the initial state, a sequence of enqueues
on one channel whose last element makes the buffer reach
`MESSAGE_BATCH_SIZE` triggers the drain synchronously inside that very
`addMessageToBatch` call (the backend call is already recorded when the
enqueue fold ends), the drained snapshot is exactly the enqueued items in
arrival order with length equal to the size limit, no timer is left pending
for the channel, and the drain is in flight. -/
theorem size_limit_enqueue_drains_immediately (cfg : Config) (ch : String)
    (xs : List (Msg × MessageType × Nat)) (x : Msg × MessageType × Nat)
    (hch : ∀ y ∈ xs ++ [x], y.1.channelId = ch)
    (hlen : (xs ++ [x]).length = cfg.batchSize) :
    (run cfg ((xs ++ [x]).map enqEvent)).calls =
      [drainCall cfg ch ((xs ++ [x]).map enqItem)] ∧
    (drainCall cfg ch ((xs ++ [x]).map enqItem)).snapshot =
      (xs ++ [x]).map enqItem ∧
    ((xs ++ [x]).map enqItem).length = cfg.batchSize ∧
    mapGet (run cfg ((xs ++ [x]).map enqEvent)).timers ch = none ∧
    (run cfg ((xs ++ [x]).map enqEvent)).inflight = [ch] := by
  have hxslen : xs.length + 1 = cfg.batchSize := by simpa using hlen
  have hxch : x.1.channelId = ch :=
    hch x (List.mem_append_right _ (List.mem_cons_self x []))
  unfold run
  rw [List.map_append, List.foldl_append]
  simp only [List.map_cons, List.map_nil, List.foldl_cons, List.foldl_nil]
  obtain ⟨hcalls, hin, hbuf⟩ := run_enqueues_below cfg ch xs initState []
    (fun y hy => hch y (List.mem_append_left _ hy))
    rfl
    (by simp only [List.length_nil]; omega)
  set s1 := (xs.map enqEvent).foldl (step cfg) initState with hs1
  have hacc1 : (mapGet s1.buffers x.1.channelId).getD [] = xs.map enqItem := by
    rw [hxch]
    simpa using hbuf
  have hAt : cfg.batchSize ≤
      (((mapGet s1.buffers x.1.channelId).getD []) ++
        [({ message := x.1, messageType := x.2.1, timestamp := x.2.2 } : BatchedMessage)]).length := by
    rw [hacc1]
    simp only [List.length_append, List.length_map, List.length_cons, List.length_nil]
    omega
  have hstep : step cfg s1 (enqEvent x) = enqueueStep cfg s1 x.1 x.2.1 x.2.2 := rfl
  rw [hstep, enqueueStep_atLimit cfg s1 x.1 x.2.1 x.2.2 hAt]
  have hbuf2 : mapGet (mapSet s1.buffers x.1.channelId
      (((mapGet s1.buffers x.1.channelId).getD []) ++
        [({ message := x.1, messageType := x.2.1, timestamp := x.2.2 } : BatchedMessage)])) x.1.channelId
      = some (((mapGet s1.buffers x.1.channelId).getD []) ++
        [({ message := x.1, messageType := x.2.1, timestamp := x.2.2 } : BatchedMessage)]) :=
    mapGet_mapSet_self _ _ _
  rw [drainStart_eq_of_nonempty cfg _ x.1.channelId _ hbuf2 (by simp)]
  have hacc1c : (mapGet s1.buffers ch).getD [] = xs.map enqItem := by
    simpa using hbuf
  have hsnap : ((mapGet s1.buffers ch).getD []) ++
      [({ message := x.1, messageType := x.2.1, timestamp := x.2.2 } : BatchedMessage)]
      = (xs ++ [x]).map enqItem := by
    rw [hacc1c, List.map_append]
    rfl
  refine ⟨?_, rfl, ?_, ?_, ?_⟩
  · simp only [hcalls, hxch, hsnap]
    rfl
  · simp [List.length_map, ← hlen]
  · rw [hxch]
    exact mapGet_mapDelete_self _ _
  · simp only [hin, hxch]
    rfl

/-- Witness for C7: with size limit 2, two messages enqueued on channel
`c7` drain immediately at the second enqueue. -/
theorem size_limit_enqueue_drains_witness :
    ((∀ y ∈ [(mC7a, MessageType.GENERIC, 0)] ++ [(mC7b, MessageType.MENTION, 3)],
        y.1.channelId = "c7") ∧
      ([(mC7a, MessageType.GENERIC, 0)] ++ [(mC7b, MessageType.MENTION, 3)]).length =
        cfgS2.batchSize) ∧
    ((run cfgS2 (([(mC7a, MessageType.GENERIC, 0)] ++
        [(mC7b, MessageType.MENTION, 3)]).map enqEvent)).calls =
      [drainCall cfgS2 "c7" (([(mC7a, MessageType.GENERIC, 0)] ++
        [(mC7b, MessageType.MENTION, 3)]).map enqItem)] ∧
    (drainCall cfgS2 "c7" (([(mC7a, MessageType.GENERIC, 0)] ++
        [(mC7b, MessageType.MENTION, 3)]).map enqItem)).snapshot =
      ([(mC7a, MessageType.GENERIC, 0)] ++ [(mC7b, MessageType.MENTION, 3)]).map enqItem ∧
    (([(mC7a, MessageType.GENERIC, 0)] ++
        [(mC7b, MessageType.MENTION, 3)]).map enqItem).length = cfgS2.batchSize ∧
    mapGet (run cfgS2 (([(mC7a, MessageType.GENERIC, 0)] ++
        [(mC7b, MessageType.MENTION, 3)]).map enqEvent)).timers "c7" = none ∧
    (run cfgS2 (([(mC7a, MessageType.GENERIC, 0)] ++
        [(mC7b, MessageType.MENTION, 3)]).map enqEvent)).inflight = ["c7"]) :=
  ⟨⟨by decide, by decide⟩,
    size_limit_enqueue_drains_immediately cfgS2 "c7"
      [(mC7a, MessageType.GENERIC, 0)] (mC7b, MessageType.MENTION, 3)
      (by decide) (by decide)⟩

/-- Witness for C10 at a concrete message whose text starts with `!`. -/
theorem filtered_messages_are_ignored_witness :
    (mBang.authorId = "bot" ∨ contentStartsWithBang mBang = true ∨
      (mBang.authorIsBot = true ∧ cfgAll.respondToBots = false)) ∧
    (handlerLabel cfgAll "bot" mBang = none ∧
      handleMessage cfgAll "bot" initState mBang 0 = initState) :=
  ⟨Or.inr (Or.inl (by decide)),
    filtered_messages_are_ignored cfgAll "bot" mBang initState 0
      (Or.inr (Or.inl (by decide)))⟩

theorem inv_buffers_set_nonempty (s : EngineState) (ch : String)
    (l' : List BatchedMessage) (hInv : Inv s) (hne : l' ≠ []) :
    Inv { s with buffers := mapSet s.buffers ch l' } := by
  obtain ⟨hB, hT, hTimer, hIn, hCnt⟩ := hInv
  refine ⟨keysNodup_mapSet _ _ _ hB, hT, ?_, ?_, hCnt⟩
  · intro ch' hne'
    by_cases e : ch' = ch
    · subst e
      exact ⟨l', mapGet_mapSet_self _ _ _, hne⟩
    · obtain ⟨l0, hl0, hl0ne⟩ := hTimer ch' hne'
      exact ⟨l0, by rw [mapGet_mapSet_ne _ _ _ _ e]; exact hl0, hl0ne⟩
  · intro ch' hmem
    obtain ⟨htn, l0, hl0, hl0ne⟩ := hIn ch' hmem
    refine ⟨htn, ?_⟩
    by_cases e : ch' = ch
    · subst e
      exact ⟨l', mapGet_mapSet_self _ _ _, hne⟩
    · exact ⟨l0, by rw [mapGet_mapSet_ne _ _ _ _ e]; exact hl0, hl0ne⟩

theorem inv_timers_set (s : EngineState) (ch : String) (d : Nat)
    (hInv : Inv s) (hbuf : bufNonempty s ch)
    (hfree : hasChannel s.inflight ch = false) :
    Inv { s with timers := mapSet s.timers ch d } := by
  obtain ⟨hB, hT, hTimer, hIn, hCnt⟩ := hInv
  refine ⟨hB, keysNodup_mapSet _ _ _ hT, ?_, ?_, hCnt⟩
  · intro ch' hne'
    by_cases e : ch' = ch
    · subst e
      exact hbuf
    · rw [mapGet_mapSet_ne _ _ _ _ e] at hne'
      exact hTimer ch' hne'
  · intro ch' hmem
    obtain ⟨htn, hb⟩ := hIn ch' hmem
    have e : ch' ≠ ch := by
      intro e
      subst e
      rw [hfree] at hmem
      cases hmem
    exact ⟨by rw [mapGet_mapSet_ne _ _ _ _ e]; exact htn, hb⟩

theorem inv_drain_started (s : EngineState) (ch : String)
    (l' : List BatchedMessage) (cs : List BackendCall) (hInv : Inv s)
    (hget : mapGet s.buffers ch = some l') (hne : l' ≠ [])
    (hfree : hasChannel s.inflight ch = false) :
    Inv { s with
            timers := mapDelete s.timers ch
            calls := s.calls ++ cs
            inflight := s.inflight ++ [ch] } := by
  obtain ⟨hB, hT, hTimer, hIn, hCnt⟩ := hInv
  refine ⟨hB, keysNodup_mapDelete _ _ hT, ?_, ?_, ?_⟩
  · intro ch' hne'
    by_cases e : ch' = ch
    · subst e
      rw [mapGet_mapDelete_self] at hne'
      exact absurd rfl hne'
    · rw [mapGet_mapDelete_ne _ _ _ e] at hne'
      exact hTimer ch' hne'
  · intro ch' hmem
    rw [hasChannel_append] at hmem
    rcases (Bool.or_eq_true _ _).mp hmem with h0 | h0
    · obtain ⟨htn, hb⟩ := hIn ch' h0
      refine ⟨?_, hb⟩
      by_cases e : ch' = ch
      · subst e
        exact mapGet_mapDelete_self _ _
      · rw [mapGet_mapDelete_ne _ _ _ e]
        exact htn
    · have e : ch = ch' := by
        by_cases e : ch = ch'
        · exact e
        · simp [hasChannel, e] at h0
      subst e
      exact ⟨mapGet_mapDelete_self _ _, l', hget, hne⟩
  · intro ch'
    rw [countOcc_append]
    have h1 : countOcc [ch] ch' = if ch = ch' then 1 else 0 := by
      simp [countOcc]
    by_cases e : ch = ch'
    · subst e
      have h0 : countOcc s.inflight ch = 0 := (hasChannel_eq_false_iff _ _).mp hfree
      rw [h0, h1]
      simp
    · rw [h1]
      have := hCnt ch'
      simp [e]
      omega

theorem inv_enqueue (cfg : Config) (s : EngineState) (m : Msg)
    (mt : MessageType) (now : Nat) (hInv : Inv s)
    (hfree : hasChannel s.inflight m.channelId = false) :
    Inv (enqueueStep cfg s m mt now) := by
  have hbne : (((mapGet s.buffers m.channelId).getD []) ++
      [({ message := m, messageType := mt, timestamp := now } : BatchedMessage)]) ≠ [] := by
    simp
  by_cases hsz : cfg.batchSize ≤
      ((((mapGet s.buffers m.channelId).getD []) ++
        [({ message := m, messageType := mt, timestamp := now } : BatchedMessage)]).length)
  · rw [enqueueStep_atLimit cfg s m mt now hsz]
    have hInv2 := inv_buffers_set_nonempty s m.channelId _ hInv hbne
    rw [drainStart_eq_of_nonempty cfg _ m.channelId
      (((mapGet s.buffers m.channelId).getD []) ++
        [({ message := m, messageType := mt, timestamp := now } : BatchedMessage)])
      (mapGet_mapSet_self _ _ _) hbne]
    exact inv_drain_started _ m.channelId _ _ hInv2 (mapGet_mapSet_self _ _ _) hbne hfree
  · have h2 : ((mapGet s.buffers m.channelId).getD []).length + 1 < cfg.batchSize := by
      simp only [List.length_append, List.length_cons, List.length_nil] at hsz
      omega
    rw [enqueueStep_below cfg s m mt now h2]
    have hInv2 := inv_buffers_set_nonempty s m.channelId _ hInv hbne
    exact inv_timers_set _ m.channelId _ hInv2
      ⟨_, mapGet_mapSet_self _ _ _, hbne⟩ hfree

theorem inv_timerFire (cfg : Config) (s : EngineState) (ch : String)
    (hInv : Inv s) : Inv (step cfg s (Event.timerFire ch)) := by
  cases ht : mapGet s.timers ch with
  | none => simpa [step, ht] using hInv
  | some d =>
    simp only [step, ht]
    obtain ⟨hB, hT, hTimer, hIn, hCnt⟩ := hInv
    obtain ⟨l, hl, hlne⟩ := hTimer ch (by rw [ht]; exact fun hc => Option.noConfusion hc)
    rw [drainStart_eq_of_nonempty cfg s ch l hl hlne]
    have hfree : hasChannel s.inflight ch = false := by
      rcases hc : hasChannel s.inflight ch with _ | _
      · rfl
      · have := (hIn ch hc).1
        rw [this] at ht
        cases ht
    exact inv_drain_started s ch l _ ⟨hB, hT, hTimer, hIn, hCnt⟩ hl hlne hfree

theorem inv_complete (cfg : Config) (s : EngineState) (ch : String) (ok : Bool)
    (hInv : Inv s) : Inv (step cfg s (Event.complete ch ok)) := by
  obtain ⟨hB, hT, hTimer, hIn, hCnt⟩ := hInv
  cases hhc : hasChannel s.inflight ch with
  | false => simpa [step, hhc] using ⟨hB, hT, hTimer, hIn, hCnt⟩
  | true =>
    simp only [step, hhc, if_true]
    obtain ⟨htnone, _⟩ := hIn ch hhc
    refine ⟨keysNodup_mapDelete _ _ hB, hT, ?_, ?_, ?_⟩
    · intro ch' hne'
      have e : ch' ≠ ch := by
        intro e
        subst e
        exact hne' htnone
      obtain ⟨l0, hl0, hl0ne⟩ := hTimer ch' hne'
      exact ⟨l0, by rw [mapGet_mapDelete_ne _ _ _ e]; exact hl0, hl0ne⟩
    · intro ch' hmem
      have e : ch' ≠ ch := by
        intro e
        subst e
        have hcnt1 := hCnt ch'
        have hpos := (hasChannel_iff_countOcc_pos _ _).mp hmem
        rw [countOcc_removeFirst_self] at hpos
        omega
      have hmem0 : hasChannel s.inflight ch' = true := by
        have hpos := (hasChannel_iff_countOcc_pos _ _).mp hmem
        rw [countOcc_removeFirst_ne _ _ _ e] at hpos
        exact (hasChannel_iff_countOcc_pos _ _).mpr hpos
      obtain ⟨htn, l0, hl0, hl0ne⟩ := hIn ch' hmem0
      exact ⟨htn, l0, by rw [mapGet_mapDelete_ne _ _ _ e]; exact hl0, hl0ne⟩
    · intro ch'
      by_cases e : ch' = ch
      · subst e
        rw [countOcc_removeFirst_self]
        have := hCnt ch'
        omega
      · rw [countOcc_removeFirst_ne _ _ _ e]
        exact hCnt ch'

theorem inv_init : Inv initState := by
  refine ⟨?_, ?_, ?_, ?_, ?_⟩
  · simp [keysNodup, initState]
  · simp [keysNodup, initState]
  · intro ch hne
    exact absurd rfl hne
  · intro ch hmem
    cases hmem
  · intro ch
    simp [initState, countOcc]

theorem goodRun_inv (cfg : Config) (evs : List Event) :
    ∀ (s : EngineState), Inv s → goodTrace cfg s evs = true →
      Inv (evs.foldl (step cfg) s) := by
  induction evs with
  | nil => intro s hInv _; exact hInv
  | cons e rest ih =>
    intro s hInv hgood
    simp only [goodTrace, Bool.and_eq_true] at hgood
    obtain ⟨h1, h2⟩ := hgood
    rw [List.foldl_cons]
    refine ih (step cfg s e) ?_ h2
    cases e with
    | enqueue m mt now =>
      have hfree : hasChannel s.inflight m.channelId = false := by
        simp only [eventAllowed, inflightFree, Bool.not_eq_true'] at h1
        exact h1
      exact inv_enqueue cfg s m mt now hInv hfree
    | timerFire ch => exact inv_timerFire cfg s ch hInv
    | complete ch ok => exact inv_complete cfg s ch ok hInv

/-- C2 (amended): on every trace in which no enqueue lands on a channel
while that channel's drain is suspended at its backend call, every
reachable state satisfies the claimed invariants — at most one buffer and
at most one pending timer per channel key (unique map keys), a non-empty
buffer whenever a timer is pending, and no pending timer whenever the
buffer is empty or absent.  (The restriction is necessary: the original
claim, quantifying over ALL interleavings, is refuted by
`timer_without_buffer_reachable`.) -/
theorem engine_invariants_on_drain_disjoint_traces (cfg : Config)
    (evs : List Event) (h : goodTrace cfg initState evs = true) :
    keysNodup (run cfg evs).buffers ∧ keysNodup (run cfg evs).timers ∧
    (∀ ch, mapGet (run cfg evs).timers ch ≠ none →
      ∃ l, mapGet (run cfg evs).buffers ch = some l ∧ l ≠ []) ∧
    (∀ ch, (mapGet (run cfg evs).buffers ch = none ∨
        mapGet (run cfg evs).buffers ch = some []) →
      mapGet (run cfg evs).timers ch = none) := by
  have hrun : run cfg evs = evs.foldl (step cfg) initState := rfl
  obtain ⟨hB, hT, hTimer, _, _⟩ := goodRun_inv cfg evs initState inv_init h
  rw [hrun]
  refine ⟨hB, hT, ?_, ?_⟩
  · intro ch hne
    exact hTimer ch hne
  · intro ch hb
    by_contra hne
    obtain ⟨l, hl, hlne⟩ := hTimer ch hne
    rcases hb with hb | hb
    · rw [hb] at hl
      cases hl
    · rw [hb] at hl
      injection hl with hl2
      exact hlne hl2.symm

/-- Witness for C2's amended theorem on a concrete 4-event trace (enqueue,
timer-fired drain, completion, then a fresh enqueue) that satisfies the
no-enqueue-during-drain restriction. -/
theorem engine_invariants_witness :
    goodTrace cfgB initState [Event.enqueue mA MessageType.MENTION 0,
      Event.timerFire "c1", Event.complete "c1" false,
      Event.enqueue mB MessageType.GENERIC 40000] = true ∧
    (keysNodup (run cfgB [Event.enqueue mA MessageType.MENTION 0,
        Event.timerFire "c1", Event.complete "c1" false,
        Event.enqueue mB MessageType.GENERIC 40000]).buffers ∧
      keysNodup (run cfgB [Event.enqueue mA MessageType.MENTION 0,
        Event.timerFire "c1", Event.complete "c1" false,
        Event.enqueue mB MessageType.GENERIC 40000]).timers ∧
      (∀ ch, mapGet (run cfgB [Event.enqueue mA MessageType.MENTION 0,
          Event.timerFire "c1", Event.complete "c1" false,
          Event.enqueue mB MessageType.GENERIC 40000]).timers ch ≠ none →
        ∃ l, mapGet (run cfgB [Event.enqueue mA MessageType.MENTION 0,
          Event.timerFire "c1", Event.complete "c1" false,
          Event.enqueue mB MessageType.GENERIC 40000]).buffers ch = some l ∧ l ≠ []) ∧
      (∀ ch, (mapGet (run cfgB [Event.enqueue mA MessageType.MENTION 0,
          Event.timerFire "c1", Event.complete "c1" false,
          Event.enqueue mB MessageType.GENERIC 40000]).buffers ch = none ∨
          mapGet (run cfgB [Event.enqueue mA MessageType.MENTION 0,
            Event.timerFire "c1", Event.complete "c1" false,
            Event.enqueue mB MessageType.GENERIC 40000]).buffers ch = some []) →
        mapGet (run cfgB [Event.enqueue mA MessageType.MENTION 0,
          Event.timerFire "c1", Event.complete "c1" false,
          Event.enqueue mB MessageType.GENERIC 40000]).timers ch = none)) :=
  ⟨by decide,
    engine_invariants_on_drain_disjoint_traces cfgB
      [Event.enqueue mA MessageType.MENTION 0, Event.timerFire "c1",
        Event.complete "c1" false, Event.enqueue mB MessageType.GENERIC 40000]
      (by decide)⟩

/-- C2 is false as stated on the code: with an enqueue arriving between a
drain's backend call and its completion — an interleaving the claim
explicitly includes — the engine reaches a state where channel `c1` has a
pending timer (deadline 30005) but its buffer entry is absent, violating
"no timer is pending whenever the buffer is empty or absent" (the enqueued
second message is silently deleted by the drain's deferred
`channelMessageBuffers.delete`). -/
theorem timer_without_buffer_reachable :
    mapGet (run cfgB [Event.enqueue mA MessageType.MENTION 0,
      Event.timerFire "c1", Event.enqueue mB MessageType.GENERIC 5,
      Event.complete "c1" true]).timers "c1" = some 30005 ∧
    mapGet (run cfgB [Event.enqueue mA MessageType.MENTION 0,
      Event.timerFire "c1", Event.enqueue mB MessageType.GENERIC 5,
      Event.complete "c1" true]).buffers "c1" = none :=
  ⟨by decide, by decide⟩

end LettaBot
